import Mathlib

/-!
Verification of the fabric topology-and-addressing planner of
`ansible/library/pn_ztp.py` (Pluribus zero-touch provisioning).

The Python source is shallowly embedded: every function below mirrors the
corresponding Python function (Python-2 integer division on non-negative
values coincides with `Nat` division, `&` is `&&&`, `<<` is `<<<`,
`list.remove(x)` is `List.erase`, `list(set(..))` is modelled as
`List.eraseDups`, and a `dict` lookup that can raise `KeyError` returns an
`Option`).  While-loops are embedded either by well-founded recursion on
their loop measure, or with an explicit fuel argument that the caller
instantiates generously (the fuel branch returning `[]` is never reached
for the inputs the claims quantify over; all theorems proved about the
fuelled loop hold for every fuel value).
-/

/-! ### Address planner: `calculate_link_ip_addresses` (pn_ztp.py lines 336-402) -/

/-- The `supernet_mapping` dict of line 349.  A missing key raises `KeyError`
in Python, hence the `Option`. -/
def supernet_mapping (supernet : Nat) : Option Nat :=
  if supernet = 30 then some 2
  else if supernet = 29 then some 6
  else if supernet = 28 then some 14
  else if supernet = 27 then some 30
  else none

/-- Octet `j` of the netmask built by the loop
`for i in range(cidr): mask[i / 8] += (1 << (7 - i % 8))` (lines 358-360). -/
def cidr_mask (cidr j : Nat) : Nat :=
  (List.range cidr).foldl (fun m i => if i / 8 = j then m + (1 <<< (7 - i % 8)) else m) 0

/-- Octet `j` of the network address: `network.append(int(address[i]) & mask[i])`
(lines 363-365). `a` is octet `j` of the input address. -/
def network_octet (cidr j a : Nat) : Nat :=
  a &&& cidr_mask cidr j

/-- The amount added to octet `j` of the network address by the loop
`for i in range(broadcast_range): broadcast[3 - i / 8] += (1 << (i % 8))`
(lines 368-371). -/
def bcast_add (cidr j : Nat) : Nat :=
  (List.range (32 - cidr)).foldl (fun b i => if 3 - i / 8 = j then b + (1 <<< (i % 8)) else b) 0

/-- Octet `j` of the broadcast address (lines 368-371). -/
def broadcast_octet (cidr j a : Nat) : Nat :=
  network_octet cidr j a + bcast_add cidr j

/-- The inner `while count < last_ip[3]` loop of lines 381-388: starting from
block cursor `i` it emits the host numbers `i+1 .. i+supernet_range` and then
advances `i` (and `count`) by `supernet_range + 2`.  `fuel` bounds the number
of iterations; the top-level caller passes more fuel than the loop can use. -/
def ips_list_loop (last3 range : Nat) : Nat → Nat → Nat → List Nat
  | 0, _, _ => []
  | fuel + 1, i, count =>
    if count < last3 then
      List.range' (i + 1) range ++ ips_list_loop last3 range fuel (i + range + 2) (i + range + 2)
    else []

/-- One emitted address string
`str(last_ip[0]) + '.' + str(last_ip[1]) + '.' + str(third_octet) + '.' + str(ip) + "/" + supernet_str`
(lines 391-395). -/
def link_ip_string (b0 b1 t y supernet : Nat) : String :=
  Nat.repr b0 ++ "." ++ Nat.repr b1 ++ "." ++ Nat.repr t ++ "." ++ Nat.repr y ++ "/" ++
    Nat.repr supernet

/-- The outer `while third_octet <= last_ip[2]` loop of lines 379-401.  The
first iteration starts the block cursor at `i` with `count = 0`; every later
iteration restarts both at `0` (line 399). -/
def available_ips_loop (b0 b1 tmax last3 range supernet : Nat) : Nat → Nat → Nat → List String
  | 0, _, _ => []
  | fuel + 1, t, i =>
    if t ≤ tmax then
      (ips_list_loop last3 range (last3 + 2) i 0).map (fun y => link_ip_string b0 b1 t y supernet)
        ++ available_ips_loop b0 b1 tmax last3 range supernet fuel (t + 1) 0
    else []

/-- Embedding of `calculate_link_ip_addresses(address_str, cidr_str, supernet_str)`
(lines 336-402), with the address already split into its four octets and the
numeric strings already converted.  Returns `none` when the `supernet_mapping`
lookup raises `KeyError`. -/
def calculate_link_ip_addresses (a0 a1 a2 a3 cidr supernet : Nat) : Option (List String) :=
  match supernet_mapping supernet with
  | none => none
  | some supernet_range =>
    let base_addr := a3
    let n2 := network_octet cidr 2 a2
    let b0 := broadcast_octet cidr 0 a0
    let b1 := broadcast_octet cidr 1 a1
    let b2 := broadcast_octet cidr 2 a2
    let b3 := broadcast_octet cidr 3 a3
    let diff := base_addr % (supernet_range + 2)
    some (available_ips_loop b0 b1 b2 b3 supernet_range supernet (b2 + 1) n2 (base_addr - diff))

/-- Numeric value of a dotted quad, used to state "lies within the network". -/
def ip_val (x0 x1 x2 x3 : Nat) : Nat :=
  ((x0 * 256 + x1) * 256 + x2) * 256 + x3

/-! ### Address planner: `assign_loopback_ip` (pn_ztp.py lines 524-568) -/

/-- The `for vrouter in vrouter_names` loop of lines 547-562.  `existing`
models the `vrouter-loopback-interface-show ip <ip> format switch` query;
an interface is added (a `(vrouter, ip)` pair is emitted) exactly when the
vrouter is absent from that query.  `vrouter_count` increments on every
iteration (line 562), assigned or not. -/
def assign_loopback_loop (static_part : String) (existing : String → List String) :
    List String → Nat → List (String × String)
  | [], _ => []
  | vrouter :: rest, vrouter_count =>
    let ip := static_part ++ Nat.repr vrouter_count
    (if vrouter ∈ existing ip then [] else [(vrouter, ip)])
      ++ assign_loopback_loop static_part existing rest (vrouter_count + 1)

/-- Embedding of `assign_loopback_ip(module, loopback_address)` (lines 524-568), with the
`static_part` string already assembled from the first three octets and the
vrouter list and loopback-interface state abstracted as inputs.  Returns the
`vrouter-loopback-interface-add` bindings issued and the informational /
failure message, if any. -/
def assign_loopback_ip (static_part : String) (vrouter_names : List String)
    (existing : String → List String) : List (String × String) × Option String :=
  if 0 < vrouter_names.length then
    if vrouter_names.length + 1 - 1 ≤ 255 then
      (assign_loopback_loop static_part existing vrouter_names 1, none)
    else ([], some "Not enough ips for all the vrouters")
  else ([], some "no vrouters present")

/-! ### Fabric control-plane actions and read-only queries -/

/-- A mutating CLI call issued against some switch. -/
inductive CliAction where
  | disable_auto_trunk (sw : String)
  | vrouter_create (sw name vnet : String)
  | trunk_delete (sw name : String)
  | vrouter_interface_add (vrouter ip l3port : String)
  | vrouter_loopback_add (vrouter ip : String)
  | cluster_create (sw name node1 node2 : String)
  | trunk_create (sw name : String) (ports : List String)
  | vlag_create (sw name peer port peer_port : String)
deriving DecidableEq

/-- Read-only control-plane queries (`*-show` CLI calls), taken as a snapshot:
the topology is assumed stable during a run. -/
structure ControlPlane where
  /-- `fabric-node-show format name` -/
  fabric_nodes : List String
  /-- `switch <sw> port-show hostname <peer> format port` -/
  ports_of : String → String → List String
  /-- `switch <sw> port-show port <p> format rport` -/
  rport_of : String → String → String
  /-- `switch <sw> port-show port <p> hostname <peer> format trunk` -/
  trunk_at : String → String → String → List String
  /-- `vrouter-show format name` -/
  vrouter_names : List String
  /-- `vrouter-show location <sw> format name` -/
  vrouter_at : String → List String
  /-- `vrouter-interface-show l3-port <p> ip <ip> format switch` -/
  iface_owners : String → String → List String
  /-- `vrouter-loopback-interface-show ip <ip> format switch` -/
  loopback_owners : String → List String
  /-- `switch <sw> lldp-show format sys-name` -/
  lldp_sys_names : String → List String
  /-- `cluster-show` records as (name, cluster-node-1, cluster-node-2) -/
  clusters : List (String × String × String)
  /-- `switch <sw> trunk-show format name`, as (switch, name) records -/
  trunks : List (String × String)
  /-- `switch <sw> vlag-show format name`, as (switch, name) records -/
  vlags : List (String × String)

/-! ### `create_cluster`, `create_trunk`, `create_vlag` (lines 641-664, 684-707, 738-763)

Each first re-reads the current object list, skips when an object of the same
name already exists, and otherwise records the creation.  The object state is
threaded explicitly; the returned action list is empty exactly on a skip. -/

/-- Embedding of `create_cluster(module, switch, name, node1, node2)` (lines 641-664). -/
def create_cluster (clusters : List (String × String × String))
    (switch name node1 node2 : String) :
    List (String × String × String) × List CliAction :=
  let cluster_list := clusters.map (·.1)
  if name ∈ cluster_list then (clusters, [])
  else ((name, node1, node2) :: clusters, [CliAction.cluster_create switch name node1 node2])

/-- Embedding of `create_trunk(module, switch, name, ports)` (lines 684-707). -/
def create_trunk (trunks : List (String × String)) (switch name : String)
    (ports : List String) : List (String × String) × List CliAction :=
  let trunk_list := (trunks.filter (fun t => t.1 = switch)).map (·.2)
  if name ∈ trunk_list then (trunks, [])
  else ((switch, name) :: trunks, [CliAction.trunk_create switch name ports])

/-- Embedding of `create_vlag(module, switch, name, peer_switch, port, peer_port)`
(lines 738-763). -/
def create_vlag (vlags : List (String × String)) (switch name peer_switch port peer_port : String) :
    List (String × String) × List CliAction :=
  let vlag_list := (vlags.filter (fun v => v.1 = switch)).map (·.2)
  if name ∈ vlag_list then (vlags, [])
  else ((switch, name) :: vlags, [CliAction.vlag_create switch name peer_switch port peer_port])

/-! ### `leaf_no_cluster` (lines 710-735) -/

/-- Embedding of `leaf_no_cluster(module, leaf_list)`: keeps the leaves appearing neither as
`cluster-node-1` nor as `cluster-node-2` in the cluster view. -/
def leaf_no_cluster (leaf_list cluster1 cluster2 : List String) : List String :=
  leaf_list.filter (fun leaf => leaf ∉ cluster1 ∧ leaf ∉ cluster2)

/-! ### Cluster pairing: `create_leaf_cluster_vlag` (lines 789-865) -/

/-- The filter `for system in system_names: if system not in nodes_in_fabric:
system_names.remove(system)` (lines 826-828), with Python's semantics of
removing from the list being iterated: the iteration index advances after
every step even when the current element was just removed, so the element
sliding into the freed slot is skipped. -/
def py_filter_fabric_loop (fabric : List String) : Nat → Nat → List String → List String
  | 0, _, l => l
  | fuel + 1, idx, l =>
    if h : idx < l.length then
      if l.get ⟨idx, h⟩ ∈ fabric then py_filter_fabric_loop fabric fuel (idx + 1) l
      else py_filter_fabric_loop fabric fuel (idx + 1) (l.erase (l.get ⟨idx, h⟩))
    else l

/-- The lines 826-828 filter, started at index 0.  The iteration index grows
by one per step and the list never grows, so `l.length` steps always reach
the loop's exit condition. -/
def py_filter_fabric (fabric l : List String) : List String :=
  py_filter_fabric_loop fabric l.length 0 l

/-- The inner candidate scan `while (node_count < len(system_names)) and
(flag1 == 0)` of lines 830-864: return the first entry that is not a spine
and is still in the worklist. -/
def scan_loop (spines non_cluster_leaf names : List String) : Nat → Nat → Option String
  | 0, _ => none
  | fuel + 1, node_count =>
    if h : node_count < names.length then
      let node2 := names.get ⟨node_count, h⟩
      if node2 ∉ spines then
        if node2 ∈ non_cluster_leaf then some node2
        else scan_loop spines non_cluster_leaf names fuel (node_count + 1)
      else scan_loop spines non_cluster_leaf names fuel (node_count + 1)
    else none

/-- The pairing skeleton of `create_leaf_cluster_vlag(module, non_cluster_leaf,
spine_list)` (lines 789-865): the `(node1, node2)` pairs for which a
`cluster-create` call is issued.  `neighbors` is the raw
`lldp-show format sys-name` answer per switch and `fabric` the
`fabric-node-show` answer; both are deduplicated as `list(set(...))` before
use, and the buggy in-place fabric filter of lines 826-828 is applied. -/
def create_leaf_cluster_vlag_pairs_loop (neighbors : String → List String)
    (fabric spines : List String) : Nat → List String → List (String × String)
  | 0, _ => []
  | _ + 1, [] => []
  | fuel + 1, node1 :: rest =>
    let system_names := py_filter_fabric fabric.eraseDups (neighbors node1).eraseDups
    match scan_loop spines rest system_names system_names.length 0 with
    | some node2 =>
      (node1, node2)
        :: create_leaf_cluster_vlag_pairs_loop neighbors fabric spines fuel (rest.erase node2)
    | none => create_leaf_cluster_vlag_pairs_loop neighbors fabric spines fuel rest

/-- The pairing loop started with enough fuel for its worklist: every
iteration removes at least the popped head, so `wl.length` iterations always
empty the worklist. -/
def create_leaf_cluster_vlag_pairs (neighbors : String → List String)
    (fabric spines wl : List String) : List (String × String) :=
  create_leaf_cluster_vlag_pairs_loop neighbors fabric spines wl.length wl

/-- The cluster-pairing routine as the specification words it: pop the first
leaf `L`, find the first candidate `C` among `L`'s candidate switches that is
not a spine and still in the worklist; on a match emit `Cluster(L, C)` and
remove both, otherwise drop `L` for this run. -/
def pairUnclusteredLeaves (candidates : String → List String) (spines : List String) :
    List String → List (String × String)
  | [] => []
  | l :: rest =>
    match (candidates l).find? (fun c => !spines.contains c && rest.contains c) with
    | some c => (l, c) :: pairUnclusteredLeaves candidates spines (rest.erase c)
    | none => pairUnclusteredLeaves candidates spines rest
termination_by wl => wl.length
decreasing_by
  · have := List.length_erase_le c rest
    simp only [List.length_cons]
    omega
  · simp only [List.length_cons]
    omega

/-! ### Layer-3 orchestration: `auto_configure_link_ips` (lines 571-638) and helpers -/

/-- Embedding of `available_ips.pop(0)` iterated `n` times (lines 626-631); popping an
empty list raises `IndexError`, hence the `Option`. -/
def pop_front (n : Nat) (l : List String) : Option (List String) :=
  match n, l with
  | 0, l => some l
  | _ + 1, [] => none
  | n + 1, _ :: t => pop_front n t

/-- Embedding of `delete_trunk(module, switch, switch_port, peer_switch)` (lines 494-521):
query the trunk spanning the port towards the peer, and delete the first of
the deduplicated answers if there is one. -/
def delete_trunk (cp : ControlPlane) (switch switch_port peer_switch : String) :
    List CliAction :=
  match (cp.trunk_at switch switch_port peer_switch).eraseDups with
  | [] => []
  | t :: _ => [CliAction.trunk_delete switch t]

/-- Embedding of `create_interface(module, switch, ip, port)` (lines 440-476): look up the
vrouter located on `switch` (indexing an empty answer raises `IndexError`,
hence the `Option`), and add the interface unless that vrouter already owns
an interface with this port and ip. -/
def create_interface (cp : ControlPlane) (switch ip port : String) :
    Option (List CliAction) :=
  match cp.vrouter_at switch with
  | [] => none
  | vrouter_name :: _ =>
    if vrouter_name ∈ (cp.iface_owners port ip).eraseDups then some []
    else some [CliAction.vrouter_interface_add vrouter_name ip port]

/-- Embedding of `create_vrouter(module, switch)` (lines 405-437): the vrouter name is
`switch[3:] + '-vrouter'`; creation is skipped when a vrouter of that name
already exists.  The known vrouter-name list is threaded because each call
re-queries `vrouter-show` and sees earlier creations. -/
def create_vrouter (vnet : String) (vrouters : List String) (switch : String) :
    List String × List CliAction :=
  let vrouter_name := switch.drop 3 ++ "-vrouter"
  if vrouter_name ∈ vrouters then (vrouters, [])
  else (vrouter_name :: vrouters, [CliAction.vrouter_create switch vrouter_name vnet])

/-- The `while len(leaf_port) > 0` loop of lines 610-631: per physical port,
take the next address for the leaf end, delete a conflicting trunk and create
the interface there, take the next address for the spine end, do the same on
the spine, then discard `(1 << (32 - supernet)) - 4` further addresses.
Returns the actions issued, the error that interrupted the loop (if any;
reading past the end of `available_ips` raises `IndexError`), and the
remaining address list. -/
def link_ports_loop (cp : ControlPlane) (spine leaf : String) (supernet : Nat) :
    List String → List String → List CliAction × Option String × List String
  | [], available_ips => ([], none, available_ips)
  | lport :: prest, available_ips =>
    match available_ips with
    | [] => ([], some "IndexError: available_ips", [])
    | ip1 :: _ =>
      let acts1 := delete_trunk cp leaf lport spine
      match create_interface cp leaf ip1 lport with
      | none => (acts1, some "IndexError: vrouter_name", available_ips)
      | some acts2 =>
        match available_ips.erase ip1 with
        | [] => (acts1 ++ acts2, some "IndexError: available_ips", [])
        | ip2 :: rest2 =>
          let sport := cp.rport_of leaf lport
          let acts3 := delete_trunk cp spine sport leaf
          match create_interface cp spine ip2 sport with
          | none => (acts1 ++ acts2 ++ acts3, some "IndexError: vrouter_name", ip2 :: rest2)
          | some acts4 =>
            match pop_front ((1 <<< (32 - supernet)) - 4) ((ip2 :: rest2).erase ip2) with
            | none => (acts1 ++ acts2 ++ acts3 ++ acts4, some "IndexError: available_ips", [])
            | some rest =>
              let (acts', err, ips') := link_ports_loop cp spine leaf supernet prest rest
              (acts1 ++ acts2 ++ acts3 ++ acts4 ++ acts', err, ips')

/-- The `for leaf in leaf_list` loop of lines 604-631. -/
def link_leaves_loop (cp : ControlPlane) (spine : String) (supernet : Nat) :
    List String → List String → List CliAction × Option String × List String
  | [], available_ips => ([], none, available_ips)
  | leaf :: lrest, available_ips =>
    let leaf_port := cp.ports_of leaf spine
    let (acts, err, ips') := link_ports_loop cp spine leaf supernet leaf_port available_ips
    match err with
    | some e => (acts, some e, ips')
    | none =>
      let (acts2, err2, ips'') := link_leaves_loop cp spine supernet lrest ips'
      (acts ++ acts2, err2, ips'')

/-- The `for spine in spine_list` loop of lines 603-631. -/
def link_spines_loop (cp : ControlPlane) (supernet : Nat) (leaves : List String) :
    List String → List String → List CliAction × Option String × List String
  | [], available_ips => ([], none, available_ips)
  | spine :: srest, available_ips =>
    let (acts, err, ips') := link_leaves_loop cp spine supernet leaves available_ips
    match err with
    | some e => (acts, some e, ips')
    | none =>
      let (acts2, err2, ips'') := link_spines_loop cp supernet leaves srest ips'
      (acts ++ acts2, err2, ips'')

/-- Embedding of `auto_configure_link_ips(module)` (lines 571-638): disable auto-trunking
on every fabric node, compute the link-address pool, create the per-switch
vrouters, walk every (spine, leaf) adjacency assigning addresses, and
optionally assign loopback addresses.  Returns the mutating actions issued
(in order) and the error that aborted the run, if any. -/
def auto_configure_link_ips (cp : ControlPlane) (vnet : String)
    (spine_list leaf_list : List String) (a0 a1 a2 a3 cidr supernet : Nat)
    (assign_loopback : Bool) (loopback_static : String) :
    List CliAction × Option String :=
  let switch_names := cp.fabric_nodes.eraseDups
  let acts0 := switch_names.map CliAction.disable_auto_trunk
  match calculate_link_ip_addresses a0 a1 a2 a3 cidr supernet with
  | none => (acts0, some "KeyError: supernet_mapping")
  | some available_ips =>
    let fold := switch_names.foldl
      (fun (p : List String × List CliAction) sw =>
        let (vrs, acc) := p
        let (vrs', acts) := create_vrouter vnet vrs sw
        (vrs', acc ++ acts))
      (cp.vrouter_names, [])
    let vrouters := fold.1
    let actsV := fold.2
    let (actsL, err, _) := link_spines_loop cp supernet leaf_list spine_list available_ips
    match err with
    | some e => (acts0 ++ actsV ++ actsL, some e)
    | none =>
      if assign_loopback then
        let (pairs, _) := assign_loopback_ip loopback_static vrouters cp.loopback_owners
        (acts0 ++ actsV ++ actsL
          ++ pairs.map (fun p => CliAction.vrouter_loopback_add p.1 p.2), none)
      else (acts0 ++ actsV ++ actsL, none)

/-! ### Layer-2 orchestration: `configure_auto_vlag` (lines 892-910) and helpers -/

/-- Embedding of `create_trunk_vlag(module, node1, dest_list)` (lines 766-786): collect
and deduplicate the ports from `node1` towards every destination, and create
a trunk named `node1[5:] + '-to-' + <concatenated destinations>`. -/
def create_trunk_vlag (cp : ControlPlane) (trunks : List (String × String))
    (node1 : String) (dest_list : List String) :
    String × List (String × String) × List CliAction :=
  let src_ports := (dest_list.flatMap (fun node => cp.ports_of node1 node)).eraseDups
  let string2 := String.join dest_list
  let name := node1.drop 5 ++ "-to-" ++ string2
  let (trunks', acts) := create_trunk trunks node1 name src_ports
  (name, trunks', acts)

/-- Embedding of `create_leaf_cluster_vlag(module, non_cluster_leaf, spine_list)`
(lines 789-865) in full: the pairing loop of
`create_leaf_cluster_vlag_pairs` together with the cluster, trunk and vlag
creations done for each matched pair.  `spine_list[0]`/`spine_list[1]`
indexing raises `IndexError` when fewer than two spines exist. -/
def create_leaf_cluster_vlag (cp : ControlPlane) (fabric spines : List String) :
    List String → List (String × String × String) → List (String × String) →
    List (String × String) →
    List (String × String × String) × List (String × String) × List (String × String) ×
      List CliAction × Option String
  | [], clusters, trunks, vlags => (clusters, trunks, vlags, [], none)
  | node1 :: rest, clusters, trunks, vlags =>
    let system_names := py_filter_fabric fabric.eraseDups (cp.lldp_sys_names node1).eraseDups
    match scan_loop spines rest system_names system_names.length 0 with
    | none => create_leaf_cluster_vlag cp fabric spines rest clusters trunks vlags
    | some node2 =>
      let cname := node1 ++ "-to-" ++ node2 ++ "-cluster"
      let (clusters1, actsA) := create_cluster clusters node2 cname node1 node2
      let rest' := rest.erase node2
      let (name1, trunks1, actsB) := create_trunk_vlag cp trunks node1 spines
      let (name2, trunks2, actsC) := create_trunk_vlag cp trunks1 node2 spines
      let vname := node1.drop 5 ++ node2 ++ "-to-" ++ "spine"
      let (vlags1, actsD) := create_vlag vlags node1 vname node2 name1 name2
      match spines with
      | spine1 :: spine2 :: _ =>
        let (name3, trunks3, actsE) := create_trunk_vlag cp trunks2 spine1 [node1, node2]
        let (name4, trunks4, actsF) := create_trunk_vlag cp trunks3 spine2 [node1, node2]
        let vname2 := spine1.drop 5 ++ spine2 ++ "-to-" ++ node1 ++ node2
        let (vlags2, actsG) := create_vlag vlags1 spine1 vname2 spine2 name3 name4
        let (clR, trR, vlR, actsR, err) :=
          create_leaf_cluster_vlag cp fabric spines rest' clusters1 trunks4 vlags2
        (clR, trR, vlR,
          actsA ++ actsB ++ actsC ++ actsD ++ actsE ++ actsF ++ actsG ++ actsR, err)
      | _ =>
        (clusters1, trunks2, vlags1, actsA ++ actsB ++ actsC ++ actsD,
          some "IndexError: spine_list")
termination_by wl => wl.length
decreasing_by
  · simp only [List.length_cons]
    omega
  · have := List.length_erase_le node2 rest
    simp only [List.length_cons]
    omega

/-- Embedding of `create_nonclusterleaf_vlag(module, non_cluster_leaf, spine_list)`
(lines 868-889). -/
def create_nonclusterleaf_vlag (cp : ControlPlane) (spines : List String) :
    List String → List (String × String) → List (String × String) →
    List (String × String) × List (String × String) × List CliAction × Option String
  | [], trunks, vlags => (trunks, vlags, [], none)
  | leaf :: lrest, trunks, vlags =>
    let (_, trunks1, actsA) := create_trunk_vlag cp trunks leaf spines
    match spines with
    | spine1 :: spine2 :: _ =>
      let (name1, trunks2, actsB) := create_trunk_vlag cp trunks1 spine1 [leaf]
      let (name2, trunks3, actsC) := create_trunk_vlag cp trunks2 spine2 [leaf]
      let vname := spine1.drop 5 ++ spine2 ++ "-to-" ++ leaf
      let (vlags1, actsD) := create_vlag vlags spine1 vname spine2 name1 name2
      let (trR, vlR, actsR, err) :=
        create_nonclusterleaf_vlag cp spines lrest trunks3 vlags1
      (trR, vlR, actsA ++ actsB ++ actsC ++ actsD ++ actsR, err)
    | _ => (trunks1, vlags, actsA, some "IndexError: spine_list")

/-- Embedding of `configure_auto_vlag(module)` (lines 892-910): read the first two spines
(raising `IndexError` when fewer than two exist, before any mutation), create
the spine cluster, pair and wire the leaf clusters, and wire the remaining
unclustered leaves.  Returns the mutating actions issued and the error that
aborted the run, if any. -/
def configure_auto_vlag (cp : ControlPlane) (spine_list leaf_list : List String) :
    List CliAction × Option String :=
  match spine_list with
  | spine1 :: spine2 :: _ =>
    let (clusters1, actsA) := create_cluster cp.clusters spine1 "spine-cluster" spine1 spine2
    let non_cluster_leaf :=
      leaf_no_cluster leaf_list (clusters1.map (·.2.1)) (clusters1.map (·.2.2))
    let (clusters2, trunks2, vlags2, actsB, errB) :=
      create_leaf_cluster_vlag cp cp.fabric_nodes spine_list non_cluster_leaf
        clusters1 cp.trunks cp.vlags
    (match errB with
     | some e => (actsA ++ actsB, some e)
     | none =>
       let non_cluster_leaf2 :=
         leaf_no_cluster leaf_list (clusters2.map (·.2.1)) (clusters2.map (·.2.2))
       let (_, _, actsC, errC) :=
         create_nonclusterleaf_vlag cp spine_list non_cluster_leaf2 trunks2 vlags2
       (actsA ++ actsB ++ actsC, errC))
  | _ => ([], some "IndexError: spine_list")

/-- A small concrete control plane with a clean state, used to instantiate
the theorems at concrete inputs. -/
def sample_cp : ControlPlane :=
  { fabric_nodes := ["sw1"]
    ports_of := fun _ _ => ["7"]
    rport_of := fun _ _ => "9"
    trunk_at := fun _ _ _ => []
    vrouter_names := []
    vrouter_at := fun sw => if sw = "leaf" then ["lvr"] else ["svr"]
    iface_owners := fun _ _ => []
    loopback_owners := fun _ => []
    lldp_sys_names := fun _ => []
    clusters := []
    trunks := []
    vlags := [] }

/-! ### Helper lemmas: injectivity of `Nat.repr` -/

theorem digitChar_inj_lt_ten : ∀ d e : Fin 10, Nat.digitChar d.val = Nat.digitChar e.val → d = e := by
  decide

theorem toDigitsCore_eq_digits :
    ∀ (f n : Nat) (ds : List Char), 0 < n → n < f →
      Nat.toDigitsCore 10 f n ds = ((Nat.digits 10 n).map Nat.digitChar).reverse ++ ds := by
  intro f
  induction f with
  | zero => intro n ds hn hf; omega
  | succ f ih =>
    intro n ds hn hf
    show (if n / 10 = 0 then Nat.digitChar (n % 10) :: ds
          else Nat.toDigitsCore 10 f (n / 10) (Nat.digitChar (n % 10) :: ds)) = _
    rw [Nat.digits_def' (by norm_num : 1 < 10) hn]
    by_cases h0 : n / 10 = 0
    · rw [if_pos h0, h0]
      simp
    · rw [if_neg h0]
      rw [ih (n / 10) _ (Nat.pos_of_ne_zero h0) (by omega)]
      simp

theorem toDigits_eq_digits (n : Nat) (hn : 0 < n) :
    Nat.toDigits 10 n = ((Nat.digits 10 n).map Nat.digitChar).reverse := by
  rw [Nat.toDigits, toDigitsCore_eq_digits (n + 1) n [] hn (by omega)]
  simp

theorem map_digitChar_inj :
    ∀ (l1 l2 : List Nat), (∀ x ∈ l1, x < 10) → (∀ x ∈ l2, x < 10) →
      l1.map Nat.digitChar = l2.map Nat.digitChar → l1 = l2 := by
  intro l1
  induction l1 with
  | nil => intro l2 _ _ h; cases l2 <;> simp_all
  | cons a l ih =>
    intro l2 h1 h2 h
    cases l2 with
    | nil => simp_all
    | cons b m =>
      simp only [List.map_cons, List.cons.injEq] at h
      have hab : a = b := by
        have := digitChar_inj_lt_ten ⟨a, h1 a (by simp)⟩ ⟨b, h2 b (by simp)⟩ h.1
        exact congrArg Fin.val this
      exact hab ▸ congrArg (a :: ·)
        (ih m (fun x hx => h1 x (by simp [hx])) (fun x hx => h2 x (by simp [hx])) h.2)

theorem toDigits_ne_zero_str (b : Nat) (hb : 0 < b) : Nat.toDigits 10 b ≠ ['0'] := by
  intro hd
  rw [toDigits_eq_digits b hb] at hd
  have hmap : (Nat.digits 10 b).map Nat.digitChar = ['0'] := by
    have := congrArg List.reverse hd
    simpa using this
  have hdig : Nat.digits 10 b = [0] := by
    exact map_digitChar_inj (Nat.digits 10 b) [0]
      (fun x hx => Nat.digits_lt_base (by norm_num) hx)
      (by intro x hx; simp at hx; omega)
      (by simpa using hmap)
  have := Nat.ofDigits_digits 10 b
  rw [hdig] at this
  simp [Nat.ofDigits] at this
  omega

theorem Nat_repr_inj : ∀ (a b : Nat), Nat.repr a = Nat.repr b → a = b := by
  have hrepr : ∀ n : Nat, Nat.repr n = (Nat.toDigits 10 n).asString := fun _ => rfl
  have hdata : ∀ l : List Char, (List.asString l).data = l := fun _ => rfl
  intro a b h
  have hd : Nat.toDigits 10 a = Nat.toDigits 10 b := by
    have := congrArg String.data h
    rwa [hrepr, hrepr, hdata, hdata] at this
  rcases Nat.eq_zero_or_pos a with ha | ha <;> rcases Nat.eq_zero_or_pos b with hb | hb
  · omega
  · subst ha
    exact absurd hd.symm (toDigits_ne_zero_str b hb)
  · subst hb
    exact absurd hd (toDigits_ne_zero_str a ha)
  · rw [toDigits_eq_digits a ha, toDigits_eq_digits b hb] at hd
    have hrev := List.reverse_injective hd
    have hda := map_digitChar_inj (Nat.digits 10 a) (Nat.digits 10 b)
      (fun x hx => Nat.digits_lt_base (by norm_num) hx)
      (fun x hx => Nat.digits_lt_base (by norm_num) hx) hrev
    have h1 := Nat.ofDigits_digits 10 a
    have h2 := Nat.ofDigits_digits 10 b
    rw [hda] at h1
    omega

/-! ### Helper lemmas: the netmask octets, by finite check -/

set_option maxRecDepth 100000 in
theorem land_mask_eq : ∀ (a : Fin 256) (m : Fin 9),
    a.val &&& (256 - 2 ^ m.val) = a.val - a.val % 2 ^ m.val := by
  decide

theorem cidr_mask_3_closed : ∀ c : Fin 33, cidr_mask c.val 3 = 256 - 2 ^ min 8 (32 - c.val) := by
  decide

theorem bcast_add_3_closed : ∀ c : Fin 33, bcast_add c.val 3 = 2 ^ min 8 (32 - c.val) - 1 := by
  decide

theorem network_octet_3_eq (cidr a : Nat) (hc : cidr ≤ 32) (ha : a ≤ 255) :
    network_octet cidr 3 a = a - a % 2 ^ min 8 (32 - cidr) := by
  have h1 : cidr_mask cidr 3 = 256 - 2 ^ min 8 (32 - cidr) :=
    cidr_mask_3_closed ⟨cidr, by omega⟩
  have h2 : a &&& (256 - 2 ^ min 8 (32 - cidr)) = a - a % 2 ^ min 8 (32 - cidr) :=
    land_mask_eq ⟨a, by omega⟩ ⟨min 8 (32 - cidr), by omega⟩
  simp only [network_octet, h1, h2]

theorem supernet_mapping_cases (sn r : Nat) (hsm : supernet_mapping sn = some r) :
    (sn = 30 ∧ r = 2) ∨ (sn = 29 ∧ r = 6) ∨ (sn = 28 ∧ r = 14) ∨ (sn = 27 ∧ r = 30) := by
  by_cases e30 : sn = 30
  · left; simp [supernet_mapping, e30] at hsm; omega
  · by_cases e29 : sn = 29
    · right; left; simp [supernet_mapping, e29] at hsm; omega
    · by_cases e28 : sn = 28
      · right; right; left; simp [supernet_mapping, e28] at hsm; omega
      · by_cases e27 : sn = 27
        · right; right; right; simp [supernet_mapping, e27] at hsm; omega
        · simp [supernet_mapping, e30, e29, e28, e27] at hsm

theorem octet3_facts (cidr sn a r : Nat)
    (hsm : supernet_mapping sn = some r) (hcs : cidr ≤ sn) (ha : a ≤ 255) :
    network_octet cidr 3 a ≤ a - a % (r + 2) ∧
    a ≤ broadcast_octet cidr 3 a ∧
    (r + 2) ∣ (a - a % (r + 2)) ∧
    (r + 2) ∣ (broadcast_octet cidr 3 a + 1) ∧
    broadcast_octet cidr 3 a ≤ 255 ∧
    r + 2 = 2 ^ (32 - sn) ∧ 2 ≤ r := by
  have hsn := supernet_mapping_cases sn r hsm
  have hc32 : cidr ≤ 32 := by rcases hsn with ⟨h, _⟩ | ⟨h, _⟩ | ⟨h, _⟩ | ⟨h, _⟩ <;> omega
  have hm8 : min 8 (32 - cidr) ≤ 8 := by omega
  have hkm : (32 - sn) ≤ min 8 (32 - cidr) := by
    rcases hsn with ⟨h, _⟩ | ⟨h, _⟩ | ⟨h, _⟩ | ⟨h, _⟩ <;> omega
  have hblock : r + 2 = 2 ^ (32 - sn) := by
    rcases hsn with ⟨h1, h2⟩ | ⟨h1, h2⟩ | ⟨h1, h2⟩ | ⟨h1, h2⟩ <;> subst h1 <;> subst h2 <;> norm_num
  have hr2 : 2 ≤ r := by rcases hsn with ⟨_, h⟩ | ⟨_, h⟩ | ⟨_, h⟩ | ⟨_, h⟩ <;> omega
  have hdvdpow : (r + 2) ∣ 2 ^ min 8 (32 - cidr) := by
    rw [hblock]; exact pow_dvd_pow 2 hkm
  have hnet := network_octet_3_eq cidr a hc32 ha
  have hbc : bcast_add cidr 3 = 2 ^ min 8 (32 - cidr) - 1 := bcast_add_3_closed ⟨cidr, by omega⟩
  have hbcast : broadcast_octet cidr 3 a
      = (a - a % 2 ^ min 8 (32 - cidr)) + (2 ^ min 8 (32 - cidr) - 1) := by
    simp only [broadcast_octet, hnet, hbc]
  have hpowpos : 0 < 2 ^ min 8 (32 - cidr) := Nat.pos_pow_of_pos _ (by norm_num)
  have hmodlt : a % 2 ^ min 8 (32 - cidr) < 2 ^ min 8 (32 - cidr) := Nat.mod_lt a hpowpos
  have hmodle : a % 2 ^ min 8 (32 - cidr) ≤ a := Nat.mod_le a _
  have hdam := Nat.div_add_mod a (2 ^ min 8 (32 - cidr))
  have hsubeq : a - a % 2 ^ min 8 (32 - cidr)
      = 2 ^ min 8 (32 - cidr) * (a / 2 ^ min 8 (32 - cidr)) := by omega
  have hmodmod : a % (r + 2) ≤ a % 2 ^ min 8 (32 - cidr) := by
    calc a % (r + 2) = a % 2 ^ min 8 (32 - cidr) % (r + 2) :=
          (Nat.mod_mod_of_dvd a hdvdpow).symm
      _ ≤ a % 2 ^ min 8 (32 - cidr) := Nat.mod_le _ _
  have hsplit : 2 ^ min 8 (32 - cidr) * 2 ^ (8 - min 8 (32 - cidr)) = 256 := by
    rw [← pow_add]
    have h88 : min 8 (32 - cidr) + (8 - min 8 (32 - cidr)) = 8 := by omega
    rw [h88]
    norm_num
  have hdivlt : a / 2 ^ min 8 (32 - cidr) < 2 ^ (8 - min 8 (32 - cidr)) := by
    apply Nat.div_lt_of_lt_mul
    calc a ≤ 255 := ha
      _ < 256 := by norm_num
      _ = 2 ^ min 8 (32 - cidr) * 2 ^ (8 - min 8 (32 - cidr)) := hsplit.symm
  have hn3le : 2 ^ min 8 (32 - cidr) * (a / 2 ^ min 8 (32 - cidr)) + 2 ^ min 8 (32 - cidr)
      ≤ 256 := by
    have he : 2 ^ min 8 (32 - cidr) * (a / 2 ^ min 8 (32 - cidr)) + 2 ^ min 8 (32 - cidr)
        = 2 ^ min 8 (32 - cidr) * (a / 2 ^ min 8 (32 - cidr) + 1) := by ring
    rw [he, ← hsplit]
    exact Nat.mul_le_mul_left _ (by omega)
  refine ⟨?_, ?_, ?_, ?_, ?_, hblock, hr2⟩
  · rw [hnet]
    exact Nat.sub_le_sub_left hmodmod a
  · rw [hbcast]; omega
  · have hdam2 := Nat.div_add_mod a (r + 2)
    have hs2 : a - a % (r + 2) = (r + 2) * (a / (r + 2)) := by omega
    rw [hs2]
    exact Dvd.intro _ rfl
  · rw [hbcast, hsubeq]
    have he : 2 ^ min 8 (32 - cidr) * (a / 2 ^ min 8 (32 - cidr))
          + (2 ^ min 8 (32 - cidr) - 1) + 1
        = 2 ^ min 8 (32 - cidr) * (a / 2 ^ min 8 (32 - cidr)) + 2 ^ min 8 (32 - cidr) := by
      omega
    rw [he]
    exact Nat.dvd_add (Dvd.dvd.mul_right hdvdpow _) hdvdpow
  · rw [hbcast, hsubeq]; omega

/-! ### Helper lemmas: membership in the address-emitting loops -/

theorem mem_ips_list_loop (last3 range : Nat) (hr : 1 ≤ range)
    (hdL : (range + 2) ∣ (last3 + 1)) :
    ∀ (fuel : Nat), ∀ (i count y : Nat), (range + 2) ∣ i →
      (count = i ∨ (count = 0 ∧ i ≤ last3)) →
      y ∈ ips_list_loop last3 range fuel i count →
      i + 1 ≤ y ∧ y ≤ last3 - 1 := by
  intro fuel
  induction fuel with
  | zero => intro i count y _ _ hy; simp [ips_list_loop] at hy
  | succ fuel ih =>
    intro i count y hdi hcnt hy
    simp only [ips_list_loop] at hy
    by_cases hlt : count < last3
    · rw [if_pos hlt] at hy
      have hiL : i ≤ last3 := by
        rcases hcnt with h | ⟨_, h⟩
        · omega
        · exact h
      have hine : i ≠ last3 + 1 := by omega
      have hdsub : (range + 2) ∣ (last3 + 1 - i) := Nat.dvd_sub' hdL hdi
      have hpos : 0 < last3 + 1 - i := by omega
      have hge : range + 2 ≤ last3 + 1 - i := Nat.le_of_dvd hpos hdsub
      rcases List.mem_append.mp hy with hy1 | hy2
      · have := List.mem_range'_1.mp hy1
        omega
      · have hdi' : (range + 2) ∣ (i + range + 2) := by
          have heq : i + range + 2 = i + (range + 2) := by omega
          rw [heq]
          exact Nat.dvd_add hdi (Nat.dvd_refl _)
        have := ih (i + range + 2) (i + range + 2) y hdi' (Or.inl rfl) hy2
        omega
    · rw [if_neg hlt] at hy
      simp at hy

theorem mem_available_ips_loop (b0 b1 tmax last3 range sn : Nat)
    (hr : 1 ≤ range) (hdL : (range + 2) ∣ (last3 + 1)) :
    ∀ (fuel t i : Nat) (s : String),
      (range + 2) ∣ i → i ≤ last3 →
      s ∈ available_ips_loop b0 b1 tmax last3 range sn fuel t i →
      ∃ t' y, t ≤ t' ∧ t' ≤ tmax ∧ 1 ≤ y ∧ y ≤ last3 - 1 ∧
        (t' = t → i + 1 ≤ y) ∧ s = link_ip_string b0 b1 t' y sn := by
  intro fuel
  induction fuel with
  | zero =>
    intro t i s _ _ hs
    simp [available_ips_loop] at hs
  | succ fuel ih =>
    intro t i s hdi hiL hs
    simp only [available_ips_loop] at hs
    by_cases ht : t ≤ tmax
    · rw [if_pos ht] at hs
      rcases List.mem_append.mp hs with hs1 | hs2
      · rcases List.mem_map.mp hs1 with ⟨y, hy, hrender⟩
        have hb := mem_ips_list_loop last3 range hr hdL (last3 + 2) i 0 y hdi
          (Or.inr ⟨rfl, hiL⟩) hy
        exact ⟨t, y, Nat.le_refl t, ht, by omega, hb.2, fun _ => hb.1, hrender.symm⟩
      · have := ih (t + 1) 0 s (Nat.dvd_zero _) (Nat.zero_le _) hs2
        rcases this with ⟨t', y, ht1, ht2, hy1, hy2, _, hrender⟩
        exact ⟨t', y, by omega, ht2, hy1, hy2, fun h => by omega, hrender⟩
    · rw [if_neg ht] at hs
      simp at hs

/-- C1 (amended): for octet-valued inputs with `cidr ≤ supernet` and a valid
supernet, every string returned by `calculate_link_ip_addresses` is rendered
from a third octet `t` and last octet `y` whose full numeric value lies
strictly between the value of the block's network address and the value of
the block's broadcast address — so every returned address lies within
`base/cidr` and the sequence never contains the network or broadcast
address. -/
theorem calculate_link_ip_addresses_within_block
    (a0 a1 a2 a3 cidr sn r : Nat)
    (h0 : a0 ≤ 255) (h1 : a1 ≤ 255) (h2 : a2 ≤ 255) (h3 : a3 ≤ 255)
    (hsm : supernet_mapping sn = some r) (hcs : cidr ≤ sn)
    (l : List String) (hl : calculate_link_ip_addresses a0 a1 a2 a3 cidr sn = some l)
    (s : String) (hs : s ∈ l) :
    ∃ t y,
      s = link_ip_string (broadcast_octet cidr 0 a0) (broadcast_octet cidr 1 a1) t y sn ∧
      ip_val (network_octet cidr 0 a0) (network_octet cidr 1 a1) (network_octet cidr 2 a2)
          (network_octet cidr 3 a3)
        < ip_val (broadcast_octet cidr 0 a0) (broadcast_octet cidr 1 a1) t y ∧
      ip_val (broadcast_octet cidr 0 a0) (broadcast_octet cidr 1 a1) t y
        < ip_val (broadcast_octet cidr 0 a0) (broadcast_octet cidr 1 a1)
            (broadcast_octet cidr 2 a2) (broadcast_octet cidr 3 a3) := by
  obtain ⟨f1, f2, f3, f4, f5, f6, f7⟩ := octet3_facts cidr sn a3 r hsm hcs h3
  simp only [calculate_link_ip_addresses, hsm] at hl
  have hl' : available_ips_loop (broadcast_octet cidr 0 a0) (broadcast_octet cidr 1 a1)
      (broadcast_octet cidr 2 a2) (broadcast_octet cidr 3 a3) r sn
      (broadcast_octet cidr 2 a2 + 1) (network_octet cidr 2 a2) (a3 - a3 % (r + 2)) = l := by
    exact Option.some.inj hl
  rw [← hl'] at hs
  have hr1 : 1 ≤ r := by omega
  have hi0 : a3 - a3 % (r + 2) ≤ broadcast_octet cidr 3 a3 := by
    have : a3 - a3 % (r + 2) ≤ a3 := Nat.sub_le _ _
    omega
  obtain ⟨t', y, htt, htmax, hy1, hy2, himp, hrender⟩ :=
    mem_available_ips_loop (broadcast_octet cidr 0 a0) (broadcast_octet cidr 1 a1)
      (broadcast_octet cidr 2 a2) (broadcast_octet cidr 3 a3) r sn hr1 f4
      (broadcast_octet cidr 2 a2 + 1) (network_octet cidr 2 a2) (a3 - a3 % (r + 2)) s
      f3 hi0 hs
  refine ⟨t', y, hrender, ?_, ?_⟩
  · have hn0 : network_octet cidr 0 a0 ≤ broadcast_octet cidr 0 a0 := Nat.le_add_right _ _
    have hn1 : network_octet cidr 1 a1 ≤ broadcast_octet cidr 1 a1 := Nat.le_add_right _ _
    have hn3a : network_octet cidr 3 a3 ≤ a3 := Nat.and_le_left
    rcases Nat.eq_or_lt_of_le htt with heq | hlt
    · have hyi := himp heq.symm
      simp only [ip_val]
      omega
    · simp only [ip_val]
      omega
  · have hb3 : 3 ≤ broadcast_octet cidr 3 a3 := by
      have := Nat.le_of_dvd (by omega) f4
      omega
    have hb3' : broadcast_octet cidr 3 a3 ≤ 255 := f5
    simp only [ip_val]
    omega

/-- C1 witness: the amended theorem applied at base 192.168.1.0/24,
supernet 30, for the first returned address. -/
theorem calculate_link_ip_addresses_within_block_witness :
    ∃ t y,
      "192.168.1.1/30" = link_ip_string (broadcast_octet 24 0 192) (broadcast_octet 24 1 168)
          t y 30 ∧
      ip_val (network_octet 24 0 192) (network_octet 24 1 168) (network_octet 24 2 1)
          (network_octet 24 3 0)
        < ip_val (broadcast_octet 24 0 192) (broadcast_octet 24 1 168) t y ∧
      ip_val (broadcast_octet 24 0 192) (broadcast_octet 24 1 168) t y
        < ip_val (broadcast_octet 24 0 192) (broadcast_octet 24 1 168)
            (broadcast_octet 24 2 1) (broadcast_octet 24 3 0) :=
  calculate_link_ip_addresses_within_block 192 168 1 0 24 30 2
    (by decide) (by decide) (by decide) (by decide) (by decide) (by decide)
    ((calculate_link_ip_addresses 192 168 1 0 24 30).getD []) (by decide)
    "192.168.1.1/30" (by decide)

/-- C1 counterexample: with base 192.168.1.0, cidr 30 and supernet 29 — a
valid input under the claim, which allows any cidr between 0 and 32 — the
returned sequence contains the block's own broadcast address 192.168.1.3
(and addresses beyond it), refuting the claim as stated. -/
theorem calculate_link_ip_addresses_counterexample :
    link_ip_string (broadcast_octet 30 0 192) (broadcast_octet 30 1 168)
        (broadcast_octet 30 2 1) (broadcast_octet 30 3 0) 29
      ∈ (calculate_link_ip_addresses 192 168 1 0 30 29).getD [] ∧
    link_ip_string (broadcast_octet 30 0 192) (broadcast_octet 30 1 168)
        (broadcast_octet 30 2 1) (broadcast_octet 30 3 0) 29 = "192.168.1.3/29" := by
  constructor
  · decide
  · decide

/-- C4: for base network 192.168.1.0 with cidr 24 and supernet 30, the first
four returned addresses are 192.168.1.1/30, 192.168.1.2/30, 192.168.1.5/30
and 192.168.1.6/30, and 192.168.1.3/30, 192.168.1.4/30 are skipped (they
appear nowhere in the returned sequence). -/
theorem calculate_link_ip_addresses_first_block :
    ((calculate_link_ip_addresses 192 168 1 0 24 30).getD []).take 4
      = ["192.168.1.1/30", "192.168.1.2/30", "192.168.1.5/30", "192.168.1.6/30"] ∧
    "192.168.1.3/30" ∉ (calculate_link_ip_addresses 192 168 1 0 24 30).getD [] ∧
    "192.168.1.4/30" ∉ (calculate_link_ip_addresses 192 168 1 0 24 30).getD [] := by
  exact ⟨by decide, by decide, by decide⟩

/-- C9: `calculate_link_ip_addresses` fails (the `supernet_mapping` lookup
raises `KeyError`, modelled as `none`) for every supernet outside
{27, 28, 29, 30}, and succeeds for every supernet inside that set when cidr
is a valid prefix length between 0 and 32. -/
theorem calculate_link_ip_addresses_supernet_domain
    (a0 a1 a2 a3 cidr sn_bad cidr' sn_good : Nat)
    (hbad : sn_bad ≠ 27 ∧ sn_bad ≠ 28 ∧ sn_bad ≠ 29 ∧ sn_bad ≠ 30)
    (hgood : sn_good = 27 ∨ sn_good = 28 ∨ sn_good = 29 ∨ sn_good = 30)
    (hc : cidr' ≤ 32) :
    calculate_link_ip_addresses a0 a1 a2 a3 cidr sn_bad = none ∧
    (calculate_link_ip_addresses a0 a1 a2 a3 cidr' sn_good).isSome = true := by
  obtain ⟨h27, h28, h29, h30⟩ := hbad
  constructor
  · simp [calculate_link_ip_addresses, supernet_mapping, h27, h28, h29, h30]
  · rcases hgood with h | h | h | h <;> subst h <;>
      simp [calculate_link_ip_addresses, supernet_mapping]

/-- C9 witness: supernet 26 is rejected, supernet 30 with cidr 24 is
accepted, at base 192.168.1.0. -/
theorem calculate_link_ip_addresses_supernet_domain_witness :
    calculate_link_ip_addresses 192 168 1 0 24 26 = none ∧
    (calculate_link_ip_addresses 192 168 1 0 24 30).isSome = true :=
  calculate_link_ip_addresses_supernet_domain 192 168 1 0 24 26 24 30
    (by decide) (by decide) (by decide)

/-! ### Helper lemmas for the loopback assignment -/

theorem assign_loopback_loop_clean (sp : String) :
    ∀ (names : List String) (cnt : Nat),
      assign_loopback_loop sp (fun _ => []) names cnt
        = names.zip ((List.range' cnt names.length).map (fun k => sp ++ Nat.repr k)) := by
  intro names
  induction names with
  | nil => intro cnt; simp [assign_loopback_loop]
  | cons v rest ih =>
    intro cnt
    show (if v ∈ ([] : List String) then [] else [(v, sp ++ Nat.repr cnt)])
        ++ assign_loopback_loop sp (fun _ => []) rest (cnt + 1) = _
    rw [if_neg (by simp)]
    rw [ih (cnt + 1)]
    simp only [List.length_cons, List.range'_succ, List.map_cons, List.zip_cons_cons]
    rfl

theorem append_repr_inj (sp : String) (x y : Nat) (h : sp ++ Nat.repr x = sp ++ Nat.repr y) :
    x = y := by
  apply Nat_repr_inj
  have hd := congrArg String.data h
  rw [String.data_append, String.data_append] at hd
  have := List.append_cancel_left hd
  exact String.ext this

/-- C8: on a clean control plane, sequential loopback assignment over `count`
vrouters with `count ≤ 255` binds, in vrouter order, exactly `count` pairwise
distinct addresses whose last octet runs 1, 2, …, `count` (the list
`List.range' 1 count`, which strictly increases starting at 1); with 256
vrouters it fails with the address-exhaustion message and assigns nothing. -/
theorem assign_loopback_ip_spec (sp : String) (names names256 : List String)
    (existing : String → List String)
    (h : names.length ≤ 255) (h256 : names256.length = 256) :
    (assign_loopback_ip sp names (fun _ => [])).1
        = names.zip ((List.range' 1 names.length).map (fun k => sp ++ Nat.repr k)) ∧
    ((assign_loopback_ip sp names (fun _ => [])).1.map Prod.snd).Nodup ∧
    (assign_loopback_ip sp names (fun _ => [])).1.length = names.length ∧
    (assign_loopback_ip sp names (fun _ => [])).2 ≠ some "Not enough ips for all the vrouters" ∧
    assign_loopback_ip sp names256 existing
      = ([], some "Not enough ips for all the vrouters") := by
  have hzip : (assign_loopback_ip sp names (fun _ => [])).1
      = names.zip ((List.range' 1 names.length).map (fun k => sp ++ Nat.repr k)) := by
    by_cases hpos : 0 < names.length
    · simp only [assign_loopback_ip, if_pos hpos, if_pos (by omega : names.length + 1 - 1 ≤ 255)]
      exact assign_loopback_loop_clean sp names 1
    · have : names = [] := by
        cases names with
        | nil => rfl
        | cons a l => simp at hpos
      subst this
      simp [assign_loopback_ip]
  have hlen : ((List.range' 1 names.length).map (fun k => sp ++ Nat.repr k)).length
      = names.length := by
    simp
  refine ⟨hzip, ?_, ?_, ?_, ?_⟩
  · rw [hzip, List.map_snd_zip _ _ (by omega)]
    apply List.Nodup.map_on
    · intro x _ y _ hxy
      exact append_repr_inj sp x y hxy
    · exact List.nodup_range' _ _
  · rw [hzip, List.length_zip, hlen]
    omega
  · by_cases hpos : 0 < names.length
    · simp only [assign_loopback_ip, if_pos hpos]
      rw [if_pos (by omega : names.length + 1 - 1 ≤ 255)]
      simp
    · have : names = [] := by
        cases names with
        | nil => rfl
        | cons a l => simp at hpos
      subst this
      simp [assign_loopback_ip]
  · have hpos : 0 < names256.length := by omega
    simp only [assign_loopback_ip, if_pos hpos]
    rw [if_neg (by omega : ¬(names256.length + 1 - 1 ≤ 255))]

/-- C8 witness: three vrouters get 10.0.0.1, 10.0.0.2, 10.0.0.3 in order;
256 vrouters trigger the exhaustion message. -/
theorem assign_loopback_ip_spec_witness :
    (assign_loopback_ip "10.0.0." ["v1", "v2", "v3"] (fun _ => [])).1
        = (["v1", "v2", "v3"]).zip
            ((List.range' 1 (["v1", "v2", "v3"] : List String).length).map
              (fun k => "10.0.0." ++ Nat.repr k)) ∧
    ((assign_loopback_ip "10.0.0." ["v1", "v2", "v3"] (fun _ => [])).1.map Prod.snd).Nodup ∧
    (assign_loopback_ip "10.0.0." ["v1", "v2", "v3"] (fun _ => [])).1.length
        = (["v1", "v2", "v3"] : List String).length ∧
    (assign_loopback_ip "10.0.0." ["v1", "v2", "v3"] (fun _ => [])).2
        ≠ some "Not enough ips for all the vrouters" ∧
    assign_loopback_ip "10.0.0." (List.replicate 256 "x") (fun _ => [])
      = ([], some "Not enough ips for all the vrouters") :=
  assign_loopback_ip_spec "10.0.0." ["v1", "v2", "v3"] (List.replicate 256 "x") (fun _ => [])
    (by decide) (by rw [List.length_replicate])

/-- C5: `create_trunk`, `create_vlag` and `create_cluster` are idempotent:
a second invocation with identical inputs on the state produced by the first
finds the object by name in the existing-state query, performs no creation,
and leaves the object state exactly as after the first invocation. -/
theorem create_objects_idempotent
    (clusters : List (String × String × String)) (trunks vlags : List (String × String))
    (csw cname cn1 cn2 tsw tname : String) (tports : List String)
    (vsw vname vpeer vp vpp : String) :
    create_cluster (create_cluster clusters csw cname cn1 cn2).1 csw cname cn1 cn2
      = ((create_cluster clusters csw cname cn1 cn2).1, []) ∧
    create_trunk (create_trunk trunks tsw tname tports).1 tsw tname tports
      = ((create_trunk trunks tsw tname tports).1, []) ∧
    create_vlag (create_vlag vlags vsw vname vpeer vp vpp).1 vsw vname vpeer vp vpp
      = ((create_vlag vlags vsw vname vpeer vp vpp).1, []) := by
  refine ⟨?_, ?_, ?_⟩
  · by_cases h : cname ∈ clusters.map (·.1)
    · simp [create_cluster, h]
    · simp [create_cluster, h]
  · by_cases h : tname ∈ (trunks.filter (fun t => t.1 = tsw)).map (·.2)
    · simp [create_trunk, h]
    · simp [create_trunk, h]
  · by_cases h : vname ∈ (vlags.filter (fun v => v.1 = vsw)).map (·.2)
    · simp [create_vlag, h]
    · simp [create_vlag, h]

/-- C10: the in-place fabric filter of lines 826-828 does not remove all
non-fabric neighbors.  With an empty fabric list and neighbor list
["a", "b"], removing "a" slides "b" into the freed slot, the iteration index
moves past it, and "b" survives even though it is not a fabric node; the
survivor is then eligible — and here chosen — as a cluster-pairing
candidate. -/
theorem py_filter_fabric_survivor :
    py_filter_fabric [] ["a", "b"] = ["b"] ∧
    "b" ∉ ([] : List String) ∧
    create_leaf_cluster_vlag_pairs (fun l => if l = "L" then ["a", "b"] else [])
        [] [] ["L", "b"] = [("L", "b")] := by
  exact ⟨by decide, by decide, by decide⟩

/-! ### Helper lemmas for the cluster-pairing loop -/

theorem scan_loop_eq_find (spines wl names : List String) :
    ∀ (fuel idx : Nat), names.length ≤ fuel + idx →
      scan_loop spines wl names fuel idx
        = (names.drop idx).find? (fun c => !spines.contains c && wl.contains c) := by
  intro fuel
  induction fuel with
  | zero =>
    intro idx h
    rw [List.drop_eq_nil_of_le (by omega)]
    simp [scan_loop]
  | succ fuel ih =>
    intro idx h
    simp only [scan_loop]
    by_cases hidx : idx < names.length
    · rw [dif_pos hidx]
      rw [List.drop_eq_get_cons hidx]
      by_cases h1 : names.get ⟨idx, hidx⟩ ∈ spines
      · rw [List.find?_cons_of_neg _ (by simp; exact fun hn => absurd h1 hn)]
        rw [if_neg (not_not.mpr h1)]
        exact ih (idx + 1) (by omega)
      · by_cases h2 : names.get ⟨idx, hidx⟩ ∈ wl
        · rw [List.find?_cons_of_pos _ (by simp; exact ⟨h1, h2⟩)]
          rw [if_pos h1, if_pos h2]
        · rw [List.find?_cons_of_neg _ (by simp; exact fun _ => h2)]
          rw [if_pos h1, if_neg h2]
          exact ih (idx + 1) (by omega)
    · rw [dif_neg hidx]
      rw [List.drop_eq_nil_of_le (by omega)]
      simp

theorem create_leaf_cluster_vlag_pairs_loop_eq_spec (nb : String → List String)
    (fabric spines : List String) :
    ∀ (fuel : Nat) (wl : List String), wl.length ≤ fuel →
      create_leaf_cluster_vlag_pairs_loop nb fabric spines fuel wl
        = pairUnclusteredLeaves
            (fun l => py_filter_fabric fabric.eraseDups (nb l).eraseDups) spines wl := by
  intro fuel
  induction fuel with
  | zero =>
    intro wl h
    have : wl = [] := List.eq_nil_of_length_eq_zero (by omega)
    subst this
    simp [create_leaf_cluster_vlag_pairs_loop, pairUnclusteredLeaves]
  | succ fuel ih =>
    intro wl h
    cases wl with
    | nil => simp [create_leaf_cluster_vlag_pairs_loop, pairUnclusteredLeaves]
    | cons node1 rest =>
      simp only [create_leaf_cluster_vlag_pairs_loop]
      rw [scan_loop_eq_find spines rest
        (py_filter_fabric fabric.eraseDups (nb node1).eraseDups)
        (py_filter_fabric fabric.eraseDups (nb node1).eraseDups).length 0 (by omega)]
      rw [List.drop_zero]
      cases hfind : (py_filter_fabric fabric.eraseDups (nb node1).eraseDups).find?
          (fun c => !spines.contains c && rest.contains c) with
      | none =>
        simp only [pairUnclusteredLeaves, hfind]
        exact ih rest (by simpa using Nat.le_of_succ_le_succ (by simpa using h))
      | some node2 =>
        simp only [pairUnclusteredLeaves, hfind]
        have hlen : (rest.erase node2).length ≤ fuel := by
          have := List.length_erase_le node2 rest
          simp at h
          omega
        rw [ih (rest.erase node2) hlen]

/-- C3: the cluster-pairing routine of `create_leaf_cluster_vlag` equals its
specification: repeatedly pop the first leaf of the worklist, scan its
deduplicated (and fabric-filtered) neighbor list in order for the first
candidate that is not a spine and is still in the worklist; on a match emit
exactly one cluster pair and remove both switches from the worklist, else
drop the popped leaf for the rest of the run. -/
theorem create_leaf_cluster_vlag_pairs_eq_spec (nb : String → List String)
    (fabric spines wl : List String) :
    create_leaf_cluster_vlag_pairs nb fabric spines wl
      = pairUnclusteredLeaves
          (fun l => py_filter_fabric fabric.eraseDups (nb l).eraseDups) spines wl :=
  create_leaf_cluster_vlag_pairs_loop_eq_spec nb fabric spines wl.length wl (Nat.le_refl _)

theorem scan_loop_some_mem (spines wl names : List String) (fuel idx : Nat) (x : String)
    (hfuel : names.length ≤ fuel + idx)
    (h : scan_loop spines wl names fuel idx = some x) : x ∉ spines ∧ x ∈ wl := by
  rw [scan_loop_eq_find spines wl names fuel idx hfuel] at h
  have h1 := List.find?_some h
  simp at h1
  exact h1

theorem pairs_loop_mem (nb : String → List String) (fabric spines : List String) :
    ∀ (fuel : Nat) (wl : List String) (p : String × String),
      p ∈ create_leaf_cluster_vlag_pairs_loop nb fabric spines fuel wl →
      p.1 ∈ wl ∧ p.2 ∈ wl := by
  intro fuel
  induction fuel with
  | zero => intro wl p hp; simp [create_leaf_cluster_vlag_pairs_loop] at hp
  | succ fuel ih =>
    intro wl p hp
    cases wl with
    | nil => simp [create_leaf_cluster_vlag_pairs_loop] at hp
    | cons node1 rest =>
      simp only [create_leaf_cluster_vlag_pairs_loop] at hp
      cases hscan : scan_loop spines rest
          (py_filter_fabric fabric.eraseDups (nb node1).eraseDups)
          (py_filter_fabric fabric.eraseDups (nb node1).eraseDups).length 0 with
      | none =>
        rw [hscan] at hp
        have := ih rest p hp
        exact ⟨List.mem_cons_of_mem _ this.1, List.mem_cons_of_mem _ this.2⟩
      | some node2 =>
        rw [hscan] at hp
        have hmem : node2 ∈ rest :=
          (scan_loop_some_mem spines rest _ _ 0 node2 (by omega) hscan).2
        rcases List.mem_cons.mp hp with he | hrec
        · rw [he]
          exact ⟨List.mem_cons_self _ _, List.mem_cons_of_mem _ hmem⟩
        · have := ih (rest.erase node2) p hrec
          exact ⟨List.mem_cons_of_mem _ (List.erase_subset _ _ this.1),
            List.mem_cons_of_mem _ (List.erase_subset _ _ this.2)⟩

theorem pairs_loop_countP (nb : String → List String) (fabric spines : List String) :
    ∀ (fuel : Nat) (wl : List String), wl.Nodup → ∀ (x : String),
      (create_leaf_cluster_vlag_pairs_loop nb fabric spines fuel wl).countP
        (fun p => p.1 == x || p.2 == x) ≤ 1 := by
  intro fuel
  induction fuel with
  | zero => intro wl _ x; simp [create_leaf_cluster_vlag_pairs_loop]
  | succ fuel ih =>
    intro wl hnd x
    cases wl with
    | nil => simp [create_leaf_cluster_vlag_pairs_loop]
    | cons node1 rest =>
      have hnd1 : node1 ∉ rest := (List.nodup_cons.mp hnd).1
      have hndr : rest.Nodup := (List.nodup_cons.mp hnd).2
      simp only [create_leaf_cluster_vlag_pairs_loop]
      cases hscan : scan_loop spines rest
          (py_filter_fabric fabric.eraseDups (nb node1).eraseDups)
          (py_filter_fabric fabric.eraseDups (nb node1).eraseDups).length 0 with
      | none => exact ih rest hndr x
      | some node2 =>
        have hmem : node2 ∈ rest :=
          (scan_loop_some_mem spines rest _ _ 0 node2 (by omega) hscan).2
        rw [List.countP_cons]
        by_cases hx : ((node1, node2).1 == x || (node1, node2).2 == x) = true
        · have hzero : (create_leaf_cluster_vlag_pairs_loop nb fabric spines fuel
              (rest.erase node2)).countP (fun p => p.1 == x || p.2 == x) = 0 := by
            rw [List.countP_eq_zero]
            intro p hp
            have hm := pairs_loop_mem nb fabric spines fuel (rest.erase node2) p hp
            have hp1 : p.1 ∈ rest := List.erase_subset _ _ hm.1
            have hp2 : p.2 ∈ rest := List.erase_subset _ _ hm.2
            have hne2 : node2 ∉ rest.erase node2 := hndr.not_mem_erase
            simp only [beq_iff_eq] at hx ⊢
            simp only [Bool.or_eq_true, beq_iff_eq] at hx
            rcases hx with hx | hx
            · subst hx
              simp only [Bool.or_eq_true, beq_iff_eq, not_or]
              constructor
              · intro he; exact hnd1 (he ▸ hp1)
              · intro he; exact hnd1 (he ▸ hp2)
            · subst hx
              simp only [Bool.or_eq_true, beq_iff_eq, not_or]
              constructor
              · intro he; exact hne2 (he ▸ hm.1)
              · intro he; exact hne2 (he ▸ hm.2)
          rw [hzero, if_pos hx]
        · rw [if_neg hx]
          have := ih (rest.erase node2) (hndr.erase node2) x
          omega

/-- C6: across a pairing run over a duplicate-free worklist, every switch
appears in at most one created cluster pair, and leaves already recorded as
cluster-node-1 or cluster-node-2 in the existing-cluster view are excluded
from the worklist by `leaf_no_cluster` up front. -/
theorem cluster_membership_invariant (nb : String → List String)
    (fabric spines wl : List String) (x : String)
    (leafl c1 c2 : List String) (lf : String)
    (hnd : wl.Nodup) (hmem : lf ∈ leafl) (hcl : lf ∈ c1 ∨ lf ∈ c2) :
    (create_leaf_cluster_vlag_pairs nb fabric spines wl).countP
        (fun p => p.1 == x || p.2 == x) ≤ 1 ∧
    lf ∉ leaf_no_cluster leafl c1 c2 := by
  constructor
  · exact pairs_loop_countP nb fabric spines wl.length wl hnd x
  · intro hcontra
    rw [leaf_no_cluster, List.mem_filter] at hcontra
    have h2 := hcontra.2
    simp only [decide_eq_true_eq, not_or] at h2
    rcases hcl with h | h
    · exact h2.1 h
    · exact h2.2 h

/-- C6 witness: a concrete two-leaf worklist where "l1" is paired once, and a
leaf "l3" recorded as cluster-node-1 is excluded by `leaf_no_cluster`. -/
theorem cluster_membership_invariant_witness :
    (create_leaf_cluster_vlag_pairs (fun l => if l = "l1" then ["l2"] else [])
        ["l1", "l2"] [] ["l1", "l2"]).countP
        (fun p => p.1 == "l1" || p.2 == "l1") ≤ 1 ∧
    "l3" ∉ leaf_no_cluster ["l3"] ["l3"] [] :=
  cluster_membership_invariant (fun l => if l = "l1" then ["l2"] else [])
    ["l1", "l2"] [] ["l1", "l2"] "l1" ["l3"] ["l3"] [] "l3"
    (by decide) (by decide) (Or.inl (by decide))

/-! ### Helper lemmas for layer-3 address consumption -/

theorem pop_front_eq_drop : ∀ (n : Nat) (l : List String), n ≤ l.length →
    pop_front n l = some (l.drop n) := by
  intro n
  induction n with
  | zero => intro l _; simp [pop_front]
  | succ n ih =>
    intro l h
    cases l with
    | nil => simp at h
    | cons a t =>
      rw [List.drop_succ_cons]
      exact ih t (by simpa using h)

theorem getD_drop (l : List String) (n i : Nat) (d : String) :
    (l.drop n).getD i d = l.getD (n + i) d := by
  rw [List.getD_eq_getElem?_getD, List.getD_eq_getElem?_getD, List.getElem?_drop]

theorem drop_two_cons (x0 x1 : String) (rest : List String) (m : Nat) (hm : 2 ≤ m) :
    List.drop m (x0 :: x1 :: rest) = rest.drop (m - 2) := by
  obtain ⟨k, rfl⟩ : ∃ k, m = k + 2 := ⟨m - 2, by omega⟩
  show List.drop (k + 1 + 1) (x0 :: x1 :: rest) = _
  rw [List.drop_succ_cons, List.drop_succ_cons]
  simp

theorem flatMap_map_succ {β : Type} (f : Nat → List β) :
    ∀ (l : List Nat), (l.map Nat.succ).flatMap f = l.flatMap (fun k => f (k + 1)) := by
  intro l
  induction l with
  | nil => simp
  | cons a t ih => simp [List.flatMap_cons, ih]

theorem flatMap_range_succ {β : Type} (n : Nat) (f : Nat → List β) :
    (List.range (n + 1)).flatMap f = f 0 ++ (List.range n).flatMap (fun k => f (k + 1)) := by
  rw [List.range_succ_eq_map, List.flatMap_cons, flatMap_map_succ]

theorem flatMap_congr_mem {β : Type} (l : List Nat) (f g : Nat → List β)
    (h : ∀ a ∈ l, f a = g a) : l.flatMap f = l.flatMap g := by
  induction l with
  | nil => simp
  | cons a t ih =>
    rw [List.flatMap_cons, List.flatMap_cons, h a (List.mem_cons_self a t),
      ih (fun x hx => h x (List.mem_cons_of_mem a hx))]

theorem eraseDups_nil_eq : List.eraseDups ([] : List String) = [] := rfl

theorem delete_trunk_clean (cp : ControlPlane) (s p q : String)
    (htr : cp.trunk_at s p q = []) : delete_trunk cp s p q = [] := by
  simp [delete_trunk, htr, eraseDups_nil_eq]

theorem create_interface_clean (cp : ControlPlane) (sw ip port vr : String)
    (hva : cp.vrouter_at sw = [vr]) (hif : ∀ p i, cp.iface_owners p i = []) :
    create_interface cp sw ip port = some [CliAction.vrouter_interface_add vr ip port] := by
  simp [create_interface, hva, hif, eraseDups_nil_eq]

theorem consumed_ips_nodup :
    ∀ (n m : Nat) (ips : List String), 2 ≤ m → (n * m ≤ ips.length) → ips.Nodup →
      ((List.range n).flatMap
        (fun k => [ips.getD (k * m) "", ips.getD (k * m + 1) ""])).Nodup := by
  intro n
  induction n with
  | zero => intro m ips _ _ _; simp
  | succ n ih =>
    intro m ips hm hlen hnd
    have hmle : m ≤ (n + 1) * m := Nat.le_mul_of_pos_left m (by omega)
    obtain ⟨x0, x1, rest, rfl⟩ : ∃ x0 x1 rest, ips = x0 :: x1 :: rest := by
      cases ips with
      | nil => exfalso; simp at hlen; omega
      | cons a t =>
        cases t with
        | nil => exfalso; simp at hlen; omega
        | cons b u => exact ⟨a, b, u, rfl⟩
    have hexp : ∀ k : Nat, (k + 1) * m = m + k * m := by intro k; ring
    have hshift : ∀ k ∈ List.range n,
        ([(x0 :: x1 :: rest).getD ((k + 1) * m) "",
          (x0 :: x1 :: rest).getD ((k + 1) * m + 1) ""] : List String)
          = [((x0 :: x1 :: rest).drop m).getD (k * m) "",
             ((x0 :: x1 :: rest).drop m).getD (k * m + 1) ""] := by
      intro k _
      rw [getD_drop, getD_drop, hexp k]
      have h3 : m + k * m + 1 = m + (k * m + 1) := by omega
      rw [h3]
    simp only [flatMap_range_succ]
    rw [flatMap_congr_mem _ _ _ hshift]
    simp only [Nat.zero_mul, Nat.zero_add, List.getD_cons_zero, List.getD_cons_succ,
      List.cons_append, List.nil_append]
    have hdnd : ((x0 :: x1 :: rest).drop m).Nodup :=
      List.Nodup.sublist (List.drop_sublist _ _) hnd
    have hlen2 : (n + 1) * m = n * m + m := by ring
    have hlen' : n * m ≤ ((x0 :: x1 :: rest).drop m).length := by
      rw [List.length_drop]
      simp only [List.length_cons] at hlen ⊢
      omega
    have hrec := ih m _ hm hlen' hdnd
    have hsub : ∀ x ∈ (List.range n).flatMap
        (fun k => [((x0 :: x1 :: rest).drop m).getD (k * m) "",
                   ((x0 :: x1 :: rest).drop m).getD (k * m + 1) ""]),
        x ∈ (x0 :: x1 :: rest).drop m := by
      intro x hx
      rcases List.mem_flatMap.mp hx with ⟨k, hk, hxk⟩
      have hkn : k < n := List.mem_range.mp hk
      have hpos : k * m + 1 < ((x0 :: x1 :: rest).drop m).length := by
        rw [List.length_drop]
        have h1 : (k + 1) * m ≤ n * m := Nat.mul_le_mul_right m (by omega)
        simp only [List.length_cons] at hlen ⊢
        have h2 : (k + 1) * m = k * m + m := by ring
        omega
      simp only [List.mem_cons, List.not_mem_nil, or_false] at hxk
      rcases hxk with h | h
      · rw [h, List.getD_eq_getElem _ _ (by omega)]
        exact List.getElem_mem _
      · rw [h, List.getD_eq_getElem _ _ hpos]
        exact List.getElem_mem _
    have hx0 : x0 ∉ x1 :: rest := (List.nodup_cons.mp hnd).1
    have hx1 : x1 ∉ rest := (List.nodup_cons.mp (List.nodup_cons.mp hnd).2).1
    have hdropsub : ∀ x, x ∈ (x0 :: x1 :: rest).drop m → x ∈ rest := by
      intro x hx
      rw [drop_two_cons x0 x1 rest m hm] at hx
      exact List.drop_subset _ _ hx
    rw [List.nodup_cons, List.nodup_cons]
    refine ⟨?_, ?_, hrec⟩
    · simp only [List.mem_cons, not_or]
      constructor
      · intro he; exact hx0 (he ▸ List.mem_cons_self x1 rest)
      · intro hin
        exact hx0 (List.mem_cons_of_mem _ (hdropsub x0 (hsub x0 hin)))
    · intro hin
      exact hx1 (hdropsub x1 (hsub x1 hin))

theorem link_ports_loop_consume (cp : ControlPlane) (spine leaf : String) (sn : Nat)
    (vl vs : String)
    (hvl : cp.vrouter_at leaf = [vl]) (hvs : cp.vrouter_at spine = [vs])
    (hif : ∀ p ip, cp.iface_owners p ip = [])
    (htr : ∀ s p q, cp.trunk_at s p q = [])
    (hsn : sn ≤ 30) :
    ∀ (ports ips : List String), ports.length * (2 ^ (32 - sn) - 2) ≤ ips.length →
      link_ports_loop cp spine leaf sn ports ips
        = ((List.range ports.length).flatMap (fun k =>
            [CliAction.vrouter_interface_add vl
               (ips.getD (k * (2 ^ (32 - sn) - 2)) "") (ports.getD k ""),
             CliAction.vrouter_interface_add vs
               (ips.getD (k * (2 ^ (32 - sn) - 2) + 1) "")
               (cp.rport_of leaf (ports.getD k ""))]),
           none, ips.drop (ports.length * (2 ^ (32 - sn) - 2))) := by
  have hpow : 4 ≤ 2 ^ (32 - sn) := by
    have h1 : (2 : Nat) ^ 2 ≤ 2 ^ (32 - sn) := Nat.pow_le_pow_right (by omega) (by omega)
    omega
  have hm : 2 ≤ 2 ^ (32 - sn) - 2 := by omega
  intro ports
  induction ports with
  | nil => intro ips _; simp [link_ports_loop]
  | cons lport prest ih =>
    intro ips hlen
    have hmle : (2 ^ (32 - sn) - 2) ≤ (prest.length + 1) * (2 ^ (32 - sn) - 2) :=
      Nat.le_mul_of_pos_left _ (by omega)
    simp only [List.length_cons] at hlen
    obtain ⟨x0, x1, rest, rfl⟩ : ∃ x0 x1 rest, ips = x0 :: x1 :: rest := by
      cases ips with
      | nil => exfalso; simp at hlen; omega
      | cons a t =>
        cases t with
        | nil => exfalso; simp at hlen; omega
        | cons b u => exact ⟨a, b, u, rfl⟩
    have hexp : (prest.length + 1) * (2 ^ (32 - sn) - 2)
        = prest.length * (2 ^ (32 - sn) - 2) + (2 ^ (32 - sn) - 2) := by ring
    have hcount : (1 <<< (32 - sn)) - 4 = (2 ^ (32 - sn) - 2) - 2 := by
      rw [Nat.one_shiftLeft]; omega
    have hrest : ((2 ^ (32 - sn) - 2) - 2) ≤ rest.length := by
      simp only [List.length_cons] at hlen
      omega
    have hdrop2 : rest.drop ((2 ^ (32 - sn) - 2) - 2)
        = (x0 :: x1 :: rest).drop (2 ^ (32 - sn) - 2) :=
      (drop_two_cons x0 x1 rest _ hm).symm
    have hlen' : prest.length * (2 ^ (32 - sn) - 2)
        ≤ ((x0 :: x1 :: rest).drop (2 ^ (32 - sn) - 2)).length := by
      rw [List.length_drop]
      simp only [List.length_cons]
      simp only [List.length_cons] at hlen
      omega
    simp only [link_ports_loop,
      delete_trunk_clean cp leaf lport spine (htr _ _ _),
      delete_trunk_clean cp spine (cp.rport_of leaf lport) leaf (htr _ _ _),
      create_interface_clean cp leaf x0 lport vl hvl hif,
      create_interface_clean cp spine x1 (cp.rport_of leaf lport) vs hvs hif,
      List.erase_cons_head, hcount, pop_front_eq_drop _ _ hrest, hdrop2,
      ih _ hlen', List.nil_append, List.cons_append, List.length_cons]
    have hshift : ∀ k ∈ List.range prest.length,
        ([CliAction.vrouter_interface_add vl
            ((x0 :: x1 :: rest).getD ((k + 1) * (2 ^ (32 - sn) - 2)) "")
            ((lport :: prest).getD (k + 1) ""),
          CliAction.vrouter_interface_add vs
            ((x0 :: x1 :: rest).getD ((k + 1) * (2 ^ (32 - sn) - 2) + 1) "")
            (cp.rport_of leaf ((lport :: prest).getD (k + 1) ""))] : List CliAction)
          = [CliAction.vrouter_interface_add vl
               (((x0 :: x1 :: rest).drop (2 ^ (32 - sn) - 2)).getD
                 (k * (2 ^ (32 - sn) - 2)) "") (prest.getD k ""),
             CliAction.vrouter_interface_add vs
               (((x0 :: x1 :: rest).drop (2 ^ (32 - sn) - 2)).getD
                 (k * (2 ^ (32 - sn) - 2) + 1) "")
               (cp.rport_of leaf (prest.getD k ""))] := by
      intro k _
      have hfz : (k + 1) * (2 ^ (32 - sn) - 2)
          = (2 ^ (32 - sn) - 2) + k * (2 ^ (32 - sn) - 2) := by ring
      have h2 : (2 ^ (32 - sn) - 2) + k * (2 ^ (32 - sn) - 2) + 1
          = (2 ^ (32 - sn) - 2) + (k * (2 ^ (32 - sn) - 2) + 1) := by omega
      rw [getD_drop, getD_drop, List.getD_cons_succ, hfz, h2]
    simp only [flatMap_range_succ]
    rw [flatMap_congr_mem _ _ _ hshift]
    simp only [Nat.zero_mul, Nat.zero_add, List.getD_cons_zero, List.getD_cons_succ,
      List.cons_append, List.nil_append]
    rw [List.drop_drop]
    have hfin : 2 ^ (32 - sn) - 2 + prest.length * (2 ^ (32 - sn) - 2)
        = (prest.length + 1) * (2 ^ (32 - sn) - 2) := by ring
    rw [hfin]

/-- C2: on a clean control plane (no pre-existing trunks or interfaces, one
vrouter per end), each physical (leaf, spine) port binds exactly the next two
addresses from the front of the available sequence — the first on the leaf
end, the second on the spine end — then discards 2^(32-supernet) - 4 further
addresses, so link k consumes exactly the supernet-sized sub-block of
2^(32-supernet) - 2 = supernet_mapping[supernet] usable addresses starting at
offset k·(2^(32-supernet) - 2); the remaining pool is the original one with
those prefixes dropped, and for a duplicate-free pool no address is ever
bound twice. -/
theorem link_address_consumption_per_link (cp : ControlPlane) (spine leaf : String)
    (sn : Nat) (vl vs : String) (ports ips : List String)
    (hvl : cp.vrouter_at leaf = [vl]) (hvs : cp.vrouter_at spine = [vs])
    (hif : ∀ p ip, cp.iface_owners p ip = [])
    (htr : ∀ s p q, cp.trunk_at s p q = [])
    (hsn : sn ≤ 30)
    (hlen : ports.length * (2 ^ (32 - sn) - 2) ≤ ips.length) :
    link_ports_loop cp spine leaf sn ports ips
      = ((List.range ports.length).flatMap (fun k =>
          [CliAction.vrouter_interface_add vl
             (ips.getD (k * (2 ^ (32 - sn) - 2)) "") (ports.getD k ""),
           CliAction.vrouter_interface_add vs
             (ips.getD (k * (2 ^ (32 - sn) - 2) + 1) "")
             (cp.rport_of leaf (ports.getD k ""))]),
         none, ips.drop (ports.length * (2 ^ (32 - sn) - 2))) ∧
    (ips.Nodup →
      ((List.range ports.length).flatMap (fun k =>
          [ips.getD (k * (2 ^ (32 - sn) - 2)) "",
           ips.getD (k * (2 ^ (32 - sn) - 2) + 1) ""])).Nodup) := by
  constructor
  · exact link_ports_loop_consume cp spine leaf sn vl vs hvl hvs hif htr hsn ports ips hlen
  · intro hnd
    have hpow : 4 ≤ 2 ^ (32 - sn) := by
      have h1 : (2 : Nat) ^ 2 ≤ 2 ^ (32 - sn) := Nat.pow_le_pow_right (by omega) (by omega)
      omega
    exact consumed_ips_nodup ports.length (2 ^ (32 - sn) - 2) ips (by omega) hlen hnd

/-- C2 witness: two ports on a clean control plane with supernet 30 and four
available addresses consume all four — "a"/"b" bound on link 0, "c"/"d" on
link 1 — leaving the empty pool. -/
theorem link_address_consumption_per_link_witness :
    link_ports_loop sample_cp "spine" "leaf" 30 ["p1", "p2"] ["a", "b", "c", "d"]
      = ((List.range (["p1", "p2"] : List String).length).flatMap (fun k =>
          [CliAction.vrouter_interface_add "lvr"
             ((["a", "b", "c", "d"] : List String).getD (k * (2 ^ (32 - 30) - 2)) "")
             ((["p1", "p2"] : List String).getD k ""),
           CliAction.vrouter_interface_add "svr"
             ((["a", "b", "c", "d"] : List String).getD (k * (2 ^ (32 - 30) - 2) + 1) "")
             (sample_cp.rport_of "leaf" ((["p1", "p2"] : List String).getD k ""))]),
         none,
         (["a", "b", "c", "d"] : List String).drop
           ((["p1", "p2"] : List String).length * (2 ^ (32 - 30) - 2))) ∧
    ((["a", "b", "c", "d"] : List String).Nodup →
      ((List.range (["p1", "p2"] : List String).length).flatMap (fun k =>
          [(["a", "b", "c", "d"] : List String).getD (k * (2 ^ (32 - 30) - 2)) "",
           (["a", "b", "c", "d"] : List String).getD (k * (2 ^ (32 - 30) - 2) + 1) ""])).Nodup) :=
  link_address_consumption_per_link sample_cp "spine" "leaf" 30 "lvr" "svr"
    ["p1", "p2"] ["a", "b", "c", "d"]
    (by decide) (by decide) (fun _ _ => rfl) (fun _ _ _ => rfl) (by decide) (by decide)

/-! ### Helper lemma and theorems for the topology-completeness behavior -/

theorem link_spines_loop_nil_leaves (cp : ControlPlane) (sn : Nat) :
    ∀ (sl ips : List String), link_spines_loop cp sn [] sl ips = ([], none, ips) := by
  intro sl
  induction sl with
  | nil => intro ips; simp [link_spines_loop]
  | cons sp srest ih =>
    intro ips
    simp [link_spines_loop, link_leaves_loop, ih]

/-- C7 counterexample: in layer-3 mode with an empty leaf list — topology
discovery cannot enumerate any leaf — the orchestrator does not abort: it
reports no error and still mutates every fabric switch (auto-trunk disable
and vrouter creation), refuting the claim as stated. -/
theorem auto_configure_link_ips_no_abort :
    auto_configure_link_ips sample_cp "fab-global" ["s1", "s2"] [] 192 168 1 0 24 30 false ""
      = ([CliAction.disable_auto_trunk "sw1",
          CliAction.vrouter_create "sw1" "-vrouter" "fab-global"], none) ∧
    ([CliAction.disable_auto_trunk "sw1",
      CliAction.vrouter_create "sw1" "-vrouter" "fab-global"] : List CliAction) ≠ [] := by
  exact ⟨by decide, by decide⟩

/-- C7 (amended): layer-2 configuration indexes the spine list before issuing
any CLI call, so with fewer than two spines it aborts with an index error and
performs no mutation; layer-3 configuration performs no such completeness
check — with an empty leaf list it reports no error and still emits its
unconditional per-switch auto-trunk-disable mutations (followed by the
vrouter creations). -/
theorem topology_incomplete_behavior (cp cp2 : ControlPlane)
    (spines spines2 leaves : List String) (vnet lb : String)
    (a0 a1 a2 a3 cidr sn r : Nat)
    (hsp : spines.length < 2) (hsm : supernet_mapping sn = some r) :
    configure_auto_vlag cp spines leaves = ([], some "IndexError: spine_list") ∧
    (auto_configure_link_ips cp2 vnet spines2 [] a0 a1 a2 a3 cidr sn false lb).2 = none ∧
    ∃ tail_acts,
      (auto_configure_link_ips cp2 vnet spines2 [] a0 a1 a2 a3 cidr sn false lb).1
        = cp2.fabric_nodes.eraseDups.map CliAction.disable_auto_trunk ++ tail_acts := by
  refine ⟨?_, ?_⟩
  · match spines, hsp with
    | [], _ => rfl
    | [s], _ => rfl
  · have hsome : ∃ l, calculate_link_ip_addresses a0 a1 a2 a3 cidr sn = some l := by
      simp [calculate_link_ip_addresses, hsm]
    rcases hsome with ⟨l, hl⟩
    simp only [auto_configure_link_ips, hl, link_spines_loop_nil_leaves,
      Bool.false_eq_true, if_false]
    constructor
    · simp
    · exact ⟨_, by rw [List.append_nil]⟩

/-- C7 witness: the amended theorem applied at a one-spine layer-2 run and a
layer-3 run with two spines, no leaves, base 192.168.1.0/24 and supernet 30. -/
theorem topology_incomplete_behavior_witness :
    configure_auto_vlag sample_cp ["s1"] ["l1", "l2"]
      = ([], some "IndexError: spine_list") ∧
    (auto_configure_link_ips sample_cp "fab-global" ["s1", "s2"] []
        192 168 1 0 24 30 false "").2 = none ∧
    ∃ tail_acts,
      (auto_configure_link_ips sample_cp "fab-global" ["s1", "s2"] []
          192 168 1 0 24 30 false "").1
        = sample_cp.fabric_nodes.eraseDups.map CliAction.disable_auto_trunk ++ tail_acts :=
  topology_incomplete_behavior sample_cp sample_cp ["s1"] ["s1", "s2"] ["l1", "l2"]
    "fab-global" "" 192 168 1 0 24 30 2 (by decide) (by decide)
